import Mathlib

/-!
Shallow embedding of the youtube-feed extension's storage lifecycle manager,
remote-fetch client and query engine, together with proofs about the claims
of the specification.

Conventions of the embedding:
* `chrome.storage.local` is modelled by the `Store` structure; every storage
  write becomes a functional update of a `Store` value, in the order the
  source performs the writes.
* Wall-clock reads (`Date.now()`) are passed in as a `now : Nat` parameter.
* `chrome.storage.local.getBytesInUse` is summarised by the usage
  percentage the source computes from it; it enters the merge as a
  `usagePercent : ℚ` parameter (the value `getStorageUsage` observes).
* Network I/O of the fetch client is modelled by oracles: `netVideos` maps a
  chunk of ids to the parsed records of a successful detail request or to an
  error (a thrown/failed request); `netChannels` maps channel ids to the
  channel→country map (its internal failure handling already yields `[]`).
* JavaScript's stable `Array.prototype.sort` is modelled by
  `List.insertionSort`: every stable sort produces the same list for a total
  transitive comparator, and insertion sort is kernel-computable.
* `localeCompare` on titles is modelled by code-point lexicographic order.
-/

/-- A captured record, with the fields the verified claims depend on
(the remaining parsed fields are inert payload for these claims). -/
structure Video where
  id : String
  title : String
  channelTitle : String
  channelId : String
  defaultLanguage : String
  defaultAudioLanguage : String
  regionCode : String
  capturedAt : Nat
  viewCount : Nat
deriving DecidableEq

/-- The settings blob as stored, with every field optional: a stored object
may miss any of the `DEFAULT_SETTINGS` keys. -/
structure SettingsBlob where
  apiKey? : Option String := none
  autoCapture? : Option Bool := none
  captureInterval? : Option Nat := none
  maxStoredVideos? : Option Nat := none
  targetVideoCount? : Option Nat := none
deriving DecidableEq

/-- Fully populated settings, the result of `getSettings`. -/
structure Settings where
  apiKey : String
  autoCapture : Bool
  captureInterval : Nat
  maxStoredVideos : Nat
  targetVideoCount : Nat
deriving DecidableEq

/-- `DEFAULT_SETTINGS` from `constants.js`. -/
def DEFAULT_SETTINGS : Settings :=
  { apiKey := ""
    autoCapture := false
    captureInterval := 60
    maxStoredVideos := 500
    targetVideoCount := 100 }

/-- `getSettings`: `{ ...DEFAULT_SETTINGS, ...(stored || {}) }` — every
missing field of the stored blob is filled from the defaults. -/
def getSettings (blob : Option SettingsBlob) : Settings :=
  match blob with
  | none => DEFAULT_SETTINGS
  | some b =>
    { apiKey := b.apiKey?.getD DEFAULT_SETTINGS.apiKey
      autoCapture := b.autoCapture?.getD DEFAULT_SETTINGS.autoCapture
      captureInterval := b.captureInterval?.getD DEFAULT_SETTINGS.captureInterval
      maxStoredVideos := b.maxStoredVideos?.getD DEFAULT_SETTINGS.maxStoredVideos
      targetVideoCount := b.targetVideoCount?.getD DEFAULT_SETTINGS.targetVideoCount }

/-- One capture-history entry: `{ timestamp, videoCount }`. -/
structure HistoryEntry where
  timestamp : Nat
  videoCount : Nat
deriving DecidableEq

/-- The relevant keys of `chrome.storage.local`. -/
structure Store where
  videos : List Video
  settingsBlob : Option SettingsBlob
  lastCaptureTimestamp : Nat
  captureHistory : List HistoryEntry
deriving DecidableEq

/-- `STORAGE_LIMITS.WARNING_THRESHOLD` (0.8). -/
def WARNING_THRESHOLD : ℚ := 8 / 10

/-- `STORAGE_LIMITS.EVICTION_TARGET` (0.6). -/
def EVICTION_TARGET : ℚ := 6 / 10

/-- Worker loop of `deduplicateBy`, carrying the `seen` set of keys. -/
def dedupGo {α β : Type} [DecidableEq β] (key : α → β) :
    List β → List α → List α
  | _, [] => []
  | seen, x :: xs =>
    if key x ∈ seen then dedupGo key seen xs
    else x :: dedupGo key (key x :: seen) xs

/-- `deduplicateBy` from `utils.js`: keep each element whose key has not
been seen yet, scanning left to right. -/
def deduplicateBy {α β : Type} [DecidableEq β] (l : List α) (key : α → β) : List α :=
  dedupGo key [] l

/-- Comparator `(a, b) => b.capturedAt - a.capturedAt` — capture time
descending. -/
def dateOrder (a b : Video) : Prop := b.capturedAt ≤ a.capturedAt

instance : DecidableRel dateOrder := fun a b =>
  inferInstanceAs (Decidable (b.capturedAt ≤ a.capturedAt))

/-- Comparator `(a, b) => b.viewCount - a.viewCount` — view count
descending. -/
def viewsOrder (a b : Video) : Prop := b.viewCount ≤ a.viewCount

instance : DecidableRel viewsOrder := fun a b =>
  inferInstanceAs (Decidable (b.viewCount ≤ a.viewCount))

/-- Code-point lexicographic order on character lists, the model of
`localeCompare` non-positive. -/
def charListLe : List Char → List Char → Bool
  | [], _ => true
  | _ :: _, [] => false
  | a :: as, b :: bs => if a < b then true else if b < a then false else charListLe as bs

/-- Comparator `(a, b) => a.title.localeCompare(b.title)` — title
ascending. -/
def titleOrder (a b : Video) : Prop := charListLe a.title.data b.title.data = true

instance : DecidableRel titleOrder := fun a b =>
  inferInstanceAs (Decidable (charListLe a.title.data b.title.data = true))

/-- Steps 2–5 of `saveVideos`: concatenate existing and new records,
deduplicate by `id`, sort by capture time descending, truncate to
`maxVideos` newest when over the ceiling. -/
def mergeCore (existing newVideos : List Video) (maxVideos : Nat) : List Video :=
  let uniqueVideos := deduplicateBy (existing ++ newVideos) (fun v => v.id)
  let sorted := List.insertionSort dateOrder uniqueVideos
  if sorted.length > maxVideos then sorted.take maxVideos else sorted

/-- `settings.maxStoredVideos || 500` in `saveVideos`, after `getSettings`
already filled an absent field with the default 500. -/
def effectiveMaxVideos (blob : Option SettingsBlob) : Nat :=
  let m := (getSettings blob).maxStoredVideos
  if m = 0 then 500 else m

/-- `Math.floor(videos.length * (targetPercentage / usage.percentage))`
with `targetPercentage = EVICTION_TARGET * 100`. -/
def evictionTargetCount (count : Nat) (usagePercent : ℚ) : ℤ :=
  Int.floor ((count : ℚ) * ((EVICTION_TARGET * 100) / usagePercent))

/-- `checkAndEvictIfNeeded`: when usage is above the warning threshold,
keep only the newest `targetCount` records and write them to the videos
key; otherwise leave store and collection alone.  Returns the store after
this side effect together with the function's return value. -/
def checkAndEvictIfNeeded (st : Store) (videos : List Video) (usagePercent : ℚ) :
    Store × List Video :=
  if WARNING_THRESHOLD * 100 < usagePercent then
    let evictedVideos := videos.take (evictionTargetCount videos.length usagePercent).toNat
    ({ st with videos := evictedVideos }, evictedVideos)
  else (st, videos)

/-- `updateCaptureHistory`: push `{ timestamp: now, videoCount }`, then
`history.slice(-50)` — keep the most recent 50 entries. -/
def updateCaptureHistory (st : Store) (videoCount : Nat) (now : Nat) : Store :=
  let history := st.captureHistory ++ [{ timestamp := now, videoCount := videoCount }]
  let trimmedHistory := history.drop (history.length - 50)
  { st with captureHistory := trimmedHistory }

/-- `saveVideos` from `storage-manager.js`, one full merge invocation.
Note the source discards the value `checkAndEvictIfNeeded` returns and
persists `videosToStore` afterwards; the embedding keeps both writes in
the source's order. -/
def saveVideos (st : Store) (newVideos : List Video) (now : Nat) (usagePercent : ℚ) :
    Store :=
  if newVideos = [] then st
  else
    let videosToStore := mergeCore st.videos newVideos (effectiveMaxVideos st.settingsBlob)
    let stAfterEviction := (checkAndEvictIfNeeded st videosToStore usagePercent).1
    let stPersisted := { stAfterEviction with videos := videosToStore, lastCaptureTimestamp := now }
    updateCaptureHistory stPersisted newVideos.length now

/-- `sortVideos` of the storage manager: switch on the sort key with a
`default:` branch that sorts by date. -/
def sortVideos (videos : List Video) (sortBy : String) : List Video :=
  if sortBy = "date" then List.insertionSort dateOrder videos
  else if sortBy = "views" then List.insertionSort viewsOrder videos
  else if sortBy = "title" then List.insertionSort titleOrder videos
  else List.insertionSort dateOrder videos

/-- Query-time filter state. -/
structure Filters where
  selectedLanguages : List String
  selectedCountries : List String
  sortBy : String
  searchQuery : String
deriving DecidableEq

/-- `toLowerCase`, modelled character-wise. -/
def lowerStr (s : String) : String := ⟨s.data.map Char.toLower⟩

/-- `String.prototype.startsWith` on character lists. -/
def startsWithL : List Char → List Char → Bool
  | _, [] => true
  | [], _ :: _ => false
  | a :: as, b :: bs => a == b && startsWithL as bs

/-- `String.prototype.includes` on character lists. -/
def containsSub : List Char → List Char → Bool
  | [], pat => pat.isEmpty
  | c :: t, pat => startsWithL (c :: t) pat || containsSub t pat

/-- `s.includes(pat)`. -/
def strIncludes (s pat : String) : Bool := containsSub s.data pat.data

/-- The record predicate of the feed page's `applyFilters`: the three
early-return rejections of the filter callback. The search clause uses
`filters.searchQuery` verbatim, exactly as the source does. -/
def passesFilters (f : Filters) (v : Video) : Bool :=
  if f.selectedLanguages ≠ [] ∧
      v.defaultLanguage ∉ f.selectedLanguages ∧
      v.defaultAudioLanguage ∉ f.selectedLanguages then false
  else if f.selectedCountries ≠ [] ∧ v.regionCode ∉ f.selectedCountries then false
  else if f.searchQuery ≠ "" ∧
      strIncludes (lowerStr v.title) f.searchQuery = false ∧
      strIncludes (lowerStr v.channelTitle) f.searchQuery = false then false
  else true

/-- `applyFilters` of the feed page, filtering stage (the subsequent sort
is membership-preserving and modelled by `sortVideos`). -/
def applyFilters (videos : List Video) (f : Filters) : List Video :=
  videos.filter (fun v => passesFilters f v)

/-- The filter predicate as the SPEC words it (for comparison with the
code): the text clause applies the LOWERCASED form of the query. -/
def passesFiltersSpec (f : Filters) (v : Video) : Prop :=
  (f.selectedLanguages = [] ∨ v.defaultLanguage ∈ f.selectedLanguages ∨
      v.defaultAudioLanguage ∈ f.selectedLanguages) ∧
  (f.selectedCountries = [] ∨ v.regionCode ∈ f.selectedCountries) ∧
  (f.searchQuery = "" ∨ strIncludes (lowerStr v.title) (lowerStr f.searchQuery) = true ∨
      strIncludes (lowerStr v.channelTitle) (lowerStr f.searchQuery) = true)

instance (f : Filters) (v : Video) : Decidable (passesFiltersSpec f v) := by
  unfold passesFiltersSpec; infer_instance

/-- `YOUTUBE_API.BATCH_SIZE`. -/
def BATCH_SIZE : Nat := 50

/-- `chunkArray` from `utils.js`: successive slices of `size` elements.
(The `size = 0` guard only serves termination; all call sites pass 50.) -/
def chunkArray {α : Type} : List α → Nat → List (List α)
  | [], _ => []
  | _ :: _, 0 => []
  | x :: xs, n + 1 => (x :: xs).take (n + 1) :: chunkArray ((x :: xs).drop (n + 1)) (n + 1)
termination_by l _ => l.length
decreasing_by
  simp only [List.length_drop, List.length_cons]
  omega

/-- The channel-merge loop of `fetchVideoDetails`: overwrite a record's
region code when the channel lookup yielded a (truthy) country. -/
def mergeChannelInfo (videos : List Video) (channelMap : List (String × Option String)) :
    List Video :=
  videos.map fun v =>
    match channelMap.lookup v.channelId with
    | some (some country) => if country = "" then v else { v with regionCode := country }
    | _ => v

/-- One iteration of the chunk loop in `fetchVideoDetails`: a failed batch
request is caught (yielding `none`); a successful one is enriched with the
channel lookup over the chunk's distinct channel ids. -/
def processChunk (netVideos : List String → Except String (List Video))
    (netChannels : List String → List (String × Option String))
    (chunk : List String) : Option (List Video) :=
  match netVideos chunk with
  | Except.error _ => none
  | Except.ok videos =>
    let channelIds := deduplicateBy (videos.map (fun v => v.channelId)) id
    some (mergeChannelInfo videos (netChannels channelIds))

/-- The chunk loop: accumulate the records of the successful chunks in
order, skipping failed chunks. -/
def fetchLoop (netVideos : List String → Except String (List Video))
    (netChannels : List String → List (String × Option String)) :
    List (List String) → List Video
  | [] => []
  | chunk :: rest =>
    match processChunk netVideos netChannels chunk with
    | none => fetchLoop netVideos netChannels rest
    | some vids => vids ++ fetchLoop netVideos netChannels rest

/-- Result of a `fetchVideoDetails` run: the returned value (or the thrown
error) together with the list of detail requests that were issued. -/
structure FetchOutcome where
  result : Except String (List Video)
  requests : List (List String)

/-- `fetchVideoDetails` from `api-handler.js`. -/
def fetchVideoDetails (videoIds : List String) (apiKey : String)
    (netVideos : List String → Except String (List Video))
    (netChannels : List String → List (String × Option String)) : FetchOutcome :=
  if videoIds = [] then { result := Except.ok [], requests := [] }
  else if apiKey = "" then { result := Except.error "API key is required", requests := [] }
  else
    let chunks := chunkArray videoIds BATCH_SIZE
    { result := Except.ok (fetchLoop netVideos netChannels chunks), requests := chunks }

/-- `fetchVideoDetails` never touches the persisted store: its body contains
no storage call, so the store passes through unchanged. -/
def fetchVideoDetailsWithStore (st : Store) (videoIds : List String) (apiKey : String)
    (netVideos : List String → Except String (List Video))
    (netChannels : List String → List (String × Option String)) : Store × FetchOutcome :=
  (st, fetchVideoDetails videoIds apiKey netVideos netChannels)

/-- A sequence of merge invocations, each with its records, wall-clock and
observed usage percentage. -/
def mergeMany (st : Store) (batches : List (List Video × Nat × ℚ)) : Store :=
  batches.foldl (fun s b => saveVideos s b.1 b.2.1 b.2.2) st

/-- The store as `clearVideos` leaves it / before first use. -/
def emptyStore : Store :=
  { videos := [], settingsBlob := none, lastCaptureTimestamp := 0, captureHistory := [] }

/-! ### Sample records (used by witnesses and concrete scenarios) -/

/-- A sample record with the given id, capture time and view count. -/
def sampleVideo (i : String) (t : Nat) (views : Nat) : Video :=
  { id := i
    title := "t"
    channelTitle := "c"
    channelId := "ch"
    defaultLanguage := "en"
    defaultAudioLanguage := "en"
    regionCode := "US"
    capturedAt := t
    viewCount := views }

def videoA : Video := sampleVideo "a" 1 10
def videoB : Video := sampleVideo "b" 2 20
def videoC : Video := sampleVideo "c" 3 7
def videoD : Video := sampleVideo "d" 3 7

/-! ### Deduplication -/

theorem dedupGo_filter {α β : Type} [DecidableEq β] (key : α → β) (i : β) :
    ∀ (l : List α) (seen : List β),
      (dedupGo key seen l).filter (fun a => key a == i)
        = if i ∈ seen then [] else (l.filter (fun a => key a == i)).take 1 := by
  intro l
  induction l with
  | nil => intro seen; simp [dedupGo]
  | cons x xs ih =>
    intro seen
    rw [dedupGo]
    by_cases hx : key x ∈ seen <;> by_cases hxi : key x = i
    · have hi : i ∈ seen := hxi ▸ hx
      simp [hx, hi, ih seen]
    · by_cases hi : i ∈ seen <;>
        simp [List.filter_cons, hx, hi, ih seen, hxi]
    · subst hxi
      have hnil := ih (key x :: seen)
      rw [if_pos (List.mem_cons_self _ _)] at hnil
      simp [List.filter_cons, hx, hnil]
    · by_cases hi : i ∈ seen <;>
        simp [List.filter_cons, hx, hi, hxi, Ne.symm hxi, ih (key x :: seen)]

/-- C2 helper: deduplication keeps, for every key value, exactly the first
occurrence of the scanned list. -/
theorem deduplicateBy_filter {α β : Type} [DecidableEq β] (l : List α) (key : α → β) (i : β) :
    (deduplicateBy l key).filter (fun a => key a == i)
      = (l.filter (fun a => key a == i)).take 1 := by
  rw [deduplicateBy, dedupGo_filter key i l []]
  simp

/-- C2: merging deduplicates by identifier with first occurrence winning in
`existing ++ newRecords` — an existing record beats any new record with the
same id, and intra-batch duplicates collapse to the earliest occurrence; in
particular a batch with ids `["abc", "abc", "xyz"]` merged into an empty
collection keeps exactly one "abc" record (the first) and one "xyz"
record. -/
theorem merge_dedup_first_occurrence_wins :
    (∀ (existing newRecords : List Video) (i : String),
      (deduplicateBy (existing ++ newRecords) (fun v => v.id)).filter (fun v => v.id == i)
        = ((existing ++ newRecords).filter (fun v => v.id == i)).take 1)
    ∧ deduplicateBy [sampleVideo "abc" 1 0, sampleVideo "abc" 2 0, sampleVideo "xyz" 3 0]
        (fun v => v.id)
      = [sampleVideo "abc" 1 0, sampleVideo "xyz" 3 0] := by
  constructor
  · intro existing newRecords i
    exact deduplicateBy_filter (existing ++ newRecords) (fun v => v.id) i
  · decide

/-! ### The comparators are total and transitive -/

instance : IsTotal Video dateOrder :=
  ⟨fun a b => Nat.le_total b.capturedAt a.capturedAt⟩

instance : IsTrans Video dateOrder :=
  ⟨fun _ _ _ hab hbc => Nat.le_trans hbc hab⟩

instance : IsTotal Video viewsOrder :=
  ⟨fun a b => Nat.le_total b.viewCount a.viewCount⟩

instance : IsTrans Video viewsOrder :=
  ⟨fun _ _ _ hab hbc => Nat.le_trans hbc hab⟩

theorem charListLe_refl : ∀ l : List Char, charListLe l l = true
  | [] => rfl
  | a :: as => by
    rw [charListLe, if_neg (lt_irrefl a), if_neg (lt_irrefl a)]
    exact charListLe_refl as

theorem charListLe_total : ∀ a b : List Char, charListLe a b = true ∨ charListLe b a = true
  | [], _ => Or.inl rfl
  | _ :: _, [] => Or.inr rfl
  | a :: as, b :: bs => by
    rcases lt_trichotomy a b with h | h | h
    · left; rw [charListLe, if_pos h]
    · subst h
      rw [charListLe, if_neg (lt_irrefl a), if_neg (lt_irrefl a)]
      rw [charListLe, if_neg (lt_irrefl a), if_neg (lt_irrefl a)]
      exact charListLe_total as bs
    · right; rw [charListLe, if_pos h]

theorem charListLe_trans : ∀ a b c : List Char,
    charListLe a b = true → charListLe b c = true → charListLe a c = true
  | [], _, _, _, _ => rfl
  | _ :: _, [], _, hab, _ => by rw [charListLe] at hab; exact absurd hab (by simp)
  | _ :: _, _ :: _, [], _, hbc => by rw [charListLe] at hbc; exact absurd hbc (by simp)
  | a :: as, b :: bs, c :: cs, hab, hbc => by
    rw [charListLe] at hab hbc ⊢
    rcases lt_trichotomy a b with h1 | h1 | h1
    · rcases lt_trichotomy b c with h2 | h2 | h2
      · rw [if_pos (h1.trans h2)]
      · subst h2; rw [if_pos h1]
      · rw [if_neg (asymm h2), if_pos h2] at hbc
        exact absurd hbc (by simp)
    · subst h1
      rw [if_neg (lt_irrefl a), if_neg (lt_irrefl a)] at hab
      rcases lt_trichotomy a c with h2 | h2 | h2
      · rw [if_pos h2]
      · subst h2
        rw [if_neg (lt_irrefl a), if_neg (lt_irrefl a)] at hbc ⊢
        exact charListLe_trans as bs cs hab hbc
      · rw [if_neg (asymm h2), if_pos h2] at hbc
        exact absurd hbc (by simp)
    · rw [if_neg (asymm h1), if_pos h1] at hab
      exact absurd hab (by simp)

instance : IsTotal Video titleOrder :=
  ⟨fun a b => charListLe_total a.title.data b.title.data⟩

instance : IsTrans Video titleOrder :=
  ⟨fun _ _ _ hab hbc => charListLe_trans _ _ _ hab hbc⟩

/-! ### Query-engine sorting (C6) -/

/-- C6: the storage manager's `sortVideos` orders by capture time
descending for "date", by view count descending for "views", by title
lexically ascending for "title"; any other (or absent) key behaves exactly
like "date"; and each sort is stable: records with equal sort keys keep
their relative order from the input collection. -/
theorem sortVideos_orders_and_stability (l : List Video) :
    (sortVideos l "date").Sorted dateOrder
    ∧ (sortVideos l "views").Sorted viewsOrder
    ∧ (sortVideos l "title").Sorted titleOrder
    ∧ (∀ k : String, k ≠ "views" → k ≠ "title" → sortVideos l k = sortVideos l "date")
    ∧ (∀ a b : Video, a.capturedAt = b.capturedAt →
        List.Sublist [a, b] l → List.Sublist [a, b] (sortVideos l "date"))
    ∧ (∀ a b : Video, a.viewCount = b.viewCount →
        List.Sublist [a, b] l → List.Sublist [a, b] (sortVideos l "views"))
    ∧ (∀ a b : Video, a.title = b.title →
        List.Sublist [a, b] l → List.Sublist [a, b] (sortVideos l "title")) := by
  have hdate : sortVideos l "date" = List.insertionSort dateOrder l := by
    simp [sortVideos]
  have hviews : sortVideos l "views" = List.insertionSort viewsOrder l := by
    simp [sortVideos]
  have htitle : sortVideos l "title" = List.insertionSort titleOrder l := by
    simp [sortVideos]
  refine ⟨?_, ?_, ?_, ?_, ?_, ?_, ?_⟩
  · rw [hdate]; exact List.sorted_insertionSort dateOrder l
  · rw [hviews]; exact List.sorted_insertionSort viewsOrder l
  · rw [htitle]; exact List.sorted_insertionSort titleOrder l
  · intro k hkv hkt
    rw [hdate, sortVideos]
    by_cases hkd : k = "date"
    · simp [hkd]
    · simp [hkd, hkv, hkt]
  · intro a b hab hsub
    rw [hdate]
    exact List.pair_sublist_insertionSort (le_of_eq hab.symm) hsub
  · intro a b hab hsub
    rw [hviews]
    exact List.pair_sublist_insertionSort (le_of_eq hab.symm) hsub
  · intro a b hab hsub
    rw [htitle]
    refine List.pair_sublist_insertionSort ?_ hsub
    show charListLe a.title.data b.title.data = true
    rw [hab]
    exact charListLe_refl b.title.data

/-- Witness for C6 at concrete inputs: "recent" is an unrecognized key and
`videoC`, `videoD` tie on both capture time and view count. -/
theorem sortVideos_orders_and_stability_witness :
    ("recent" : String) ≠ "views"
    ∧ ("recent" : String) ≠ "title"
    ∧ videoC.capturedAt = videoD.capturedAt
    ∧ List.Sublist [videoC, videoD] [videoC, videoD]
    ∧ sortVideos [videoC, videoD] "recent" = sortVideos [videoC, videoD] "date"
    ∧ List.Sublist [videoC, videoD] (sortVideos [videoC, videoD] "date") := by
  refine ⟨by decide, by decide, rfl, List.Sublist.refl _, ?_, ?_⟩
  · exact (sortVideos_orders_and_stability [videoC, videoD]).2.2.2.1 "recent"
      (by decide) (by decide)
  · exact (sortVideos_orders_and_stability [videoC, videoD]).2.2.2.2.1 videoC videoD
      rfl (List.Sublist.refl _)

/-! ### Suffix-keeping (`slice(-n)`) helpers -/

/-- The last `n` elements of a list (`slice(-n)`). -/
def lastN {α : Type} (n : Nat) (l : List α) : List α := (l.reverse.take n).reverse

theorem drop_length_sub_eq_lastN {α : Type} (n : Nat) (l : List α) :
    l.drop (l.length - n) = lastN n l := by
  unfold lastN
  by_cases h : n ≤ l.length
  · rw [← List.reverse_reverse (l.drop (l.length - n)), List.reverse_drop]
    congr 2
    omega
  · have h0 : l.length - n = 0 := by omega
    rw [h0, List.drop_zero, List.take_of_length_le (by simp; omega), List.reverse_reverse]

theorem lastN_length {α : Type} (n : Nat) (l : List α) :
    (lastN n l).length = min n l.length := by
  simp [lastN]

theorem lastN_append_assoc {α : Type} (n : Nat) (l r : List α) :
    lastN n (lastN n l ++ r) = lastN n (l ++ r) := by
  unfold lastN
  rw [List.reverse_append, List.reverse_reverse, List.reverse_append,
    List.take_append_eq_append_take, List.take_append_eq_append_take, List.take_take,
    Nat.min_eq_left (Nat.sub_le _ _)]

/-! ### Field bookkeeping of the merge -/

theorem checkAndEvictIfNeeded_captureHistory (st : Store) (videos : List Video) (p : ℚ) :
    (checkAndEvictIfNeeded st videos p).1.captureHistory = st.captureHistory := by
  unfold checkAndEvictIfNeeded
  split <;> rfl

theorem saveVideos_videos (st : Store) (newVideos : List Video) (now : Nat) (p : ℚ)
    (hne : newVideos ≠ []) :
    (saveVideos st newVideos now p).videos
      = mergeCore st.videos newVideos (effectiveMaxVideos st.settingsBlob) := by
  rw [saveVideos, if_neg hne]
  rfl

theorem updateCaptureHistory_captureHistory (st : Store) (count now : Nat) :
    (updateCaptureHistory st count now).captureHistory
      = lastN 50 (st.captureHistory ++ [{ timestamp := now, videoCount := count }]) := by
  unfold updateCaptureHistory
  exact drop_length_sub_eq_lastN 50 _

theorem saveVideos_captureHistory (st : Store) (newVideos : List Video) (now : Nat) (p : ℚ)
    (hne : newVideos ≠ []) :
    (saveVideos st newVideos now p).captureHistory
      = lastN 50 (st.captureHistory
          ++ [{ timestamp := now, videoCount := newVideos.length }]) := by
  rw [saveVideos, if_neg hne, updateCaptureHistory_captureHistory]
  congr 1
  rw [checkAndEvictIfNeeded_captureHistory]

/-! ### Merge invariants (C3) -/

theorem mergeCore_sorted (existing newVideos : List Video) (maxVideos : Nat) :
    (mergeCore existing newVideos maxVideos).Sorted dateOrder := by
  unfold mergeCore
  dsimp only
  split
  · exact List.Pairwise.sublist (List.take_sublist _ _)
      (List.sorted_insertionSort dateOrder _)
  · exact List.sorted_insertionSort dateOrder _

theorem mergeCore_length_le (existing newVideos : List Video) (maxVideos : Nat) :
    (mergeCore existing newVideos maxVideos).length ≤ maxVideos := by
  unfold mergeCore
  dsimp only
  split
  · simp [List.length_take]
  · next h => omega

theorem deduplicateBy_ne_nil {α β : Type} [DecidableEq β] (l : List α) (key : α → β)
    (hne : l ≠ []) : deduplicateBy l key ≠ [] := by
  cases l with
  | nil => exact absurd rfl hne
  | cons x xs => simp [deduplicateBy, dedupGo]

theorem mergeCore_ne_nil (existing newVideos : List Video) (maxVideos : Nat)
    (hne : newVideos ≠ []) (hmax : maxVideos ≠ 0) :
    mergeCore existing newVideos maxVideos ≠ [] := by
  have h1 : existing ++ newVideos ≠ [] := by
    simp [hne]
  have h2 : deduplicateBy (existing ++ newVideos) (fun v => v.id) ≠ [] :=
    deduplicateBy_ne_nil _ _ h1
  have h3 : 0 < (List.insertionSort dateOrder
      (deduplicateBy (existing ++ newVideos) (fun v => v.id))).length := by
    rw [List.length_insertionSort]
    exact List.length_pos.mpr h2
  unfold mergeCore
  dsimp only
  split
  · rw [← List.length_pos, List.length_take]
    omega
  · rw [← List.length_pos]
    omega

/-- C3: after every merge with a non-empty batch, the persisted collection
is sorted by capture time descending and its length is bounded by the
configured `maxStoredVideos` setting (500 when the blob or field is
absent). -/
theorem saveVideos_sorted_and_bounded (st : Store) (newVideos : List Video)
    (now : Nat) (usagePercent : ℚ)
    (hne : newVideos ≠ [])
    (hmax : (getSettings st.settingsBlob).maxStoredVideos ≠ 0) :
    (saveVideos st newVideos now usagePercent).videos.Sorted dateOrder
    ∧ (saveVideos st newVideos now usagePercent).videos.length
        ≤ (getSettings st.settingsBlob).maxStoredVideos := by
  rw [saveVideos_videos st newVideos now usagePercent hne]
  have heff : effectiveMaxVideos st.settingsBlob
      = (getSettings st.settingsBlob).maxStoredVideos := by
    unfold effectiveMaxVideos
    simp [hmax]
  rw [heff]
  exact ⟨mergeCore_sorted _ _ _, mergeCore_length_le _ _ _⟩

/-- Witness for C3 at a concrete input: one new record merged into the
empty store, whose settings default to `maxStoredVideos = 500`. -/
theorem saveVideos_sorted_and_bounded_witness :
    ([videoA] : List Video) ≠ []
    ∧ (getSettings emptyStore.settingsBlob).maxStoredVideos ≠ 0
    ∧ (saveVideos emptyStore [videoA] 7 0).videos.Sorted dateOrder
    ∧ (saveVideos emptyStore [videoA] 7 0).videos.length
        ≤ (getSettings emptyStore.settingsBlob).maxStoredVideos := by
  refine ⟨by decide, by decide, ?_⟩
  have h := saveVideos_sorted_and_bounded emptyStore [videoA] 7 0 (by decide) (by decide)
  exact ⟨h.1, h.2⟩

/-! ### Byte-size eviction target (C4) -/

/-- C4: when the observed usage percentage is strictly above 80, the
eviction target equals `floor(count * (60 / usagePercent))`, the engine
keeps exactly that many newest records, the target never exceeds the
current count, and — with the percentage within its 100% ceiling — a zero
target forces a collection of at most one record. -/
theorem evictionTargetCount_spec (st : Store) (videos : List Video) (usagePercent : ℚ)
    (h80 : 80 < usagePercent) :
    evictionTargetCount videos.length usagePercent
        = Int.floor ((videos.length : ℚ) * (60 / usagePercent))
    ∧ (checkAndEvictIfNeeded st videos usagePercent).1.videos
        = videos.take (evictionTargetCount videos.length usagePercent).toNat
    ∧ (evictionTargetCount videos.length usagePercent).toNat ≤ videos.length
    ∧ (usagePercent ≤ 100 →
        (evictionTargetCount videos.length usagePercent).toNat = 0 →
        videos.length ≤ 1) := by
  have h60 : EVICTION_TARGET * 100 = 60 := by norm_num [EVICTION_TARGET]
  have hthr : WARNING_THRESHOLD * 100 = 80 := by norm_num [WARNING_THRESHOLD]
  have hpos : (0 : ℚ) < usagePercent := by linarith
  refine ⟨?_, ?_, ?_, ?_⟩
  · rw [evictionTargetCount, h60]
  · rw [checkAndEvictIfNeeded, if_pos (by rw [hthr]; exact h80)]
  · have hle : evictionTargetCount videos.length usagePercent ≤ (videos.length : ℤ) := by
      rw [evictionTargetCount]
      calc Int.floor ((videos.length : ℚ) * ((EVICTION_TARGET * 100) / usagePercent))
          ≤ Int.floor ((videos.length : ℚ)) := by
            apply Int.floor_le_floor
            have hq : (EVICTION_TARGET * 100) / usagePercent ≤ 1 := by
              rw [h60, div_le_one hpos]; linarith
            calc (videos.length : ℚ) * ((EVICTION_TARGET * 100) / usagePercent)
                ≤ (videos.length : ℚ) * 1 :=
                  mul_le_mul_of_nonneg_left hq (Nat.cast_nonneg _)
              _ = (videos.length : ℚ) := mul_one _
        _ = (videos.length : ℤ) := Int.floor_natCast _
    exact Int.toNat_le.mpr hle
  · intro h100 h0
    by_contra hgt
    push_neg at hgt
    have h2 : (2 : ℚ) ≤ (videos.length : ℚ) := by
      have h2n : 2 ≤ videos.length := hgt
      exact_mod_cast h2n
    have harg : (0 : ℚ) ≤ (videos.length : ℚ) * ((EVICTION_TARGET * 100) / usagePercent) := by
      apply mul_nonneg (Nat.cast_nonneg _)
      apply div_nonneg (by norm_num [EVICTION_TARGET]) hpos.le
    have hge : 0 ≤ evictionTargetCount videos.length usagePercent :=
      Int.floor_nonneg.mpr harg
    have hfl0 : evictionTargetCount videos.length usagePercent = 0 := by omega
    have hlt1 : (videos.length : ℚ) * ((EVICTION_TARGET * 100) / usagePercent) < 1 := by
      have hlt := Int.lt_floor_add_one
        ((videos.length : ℚ) * ((EVICTION_TARGET * 100) / usagePercent))
      rw [show Int.floor ((videos.length : ℚ) * ((EVICTION_TARGET * 100) / usagePercent))
          = evictionTargetCount videos.length usagePercent from rfl, hfl0] at hlt
      simpa using hlt
    rw [h60, ← mul_div_assoc] at hlt1
    have hlt2 : (videos.length : ℚ) * 60 < usagePercent := (div_lt_one hpos).mp hlt1
    linarith

/-- Witness for C4 with one stored record and usage 90%. -/
theorem evictionTargetCount_spec_witness :
    ((80 : ℚ) < 90)
    ∧ (evictionTargetCount ([videoA] : List Video).length 90
          = Int.floor ((([videoA] : List Video).length : ℚ) * (60 / 90))
      ∧ (checkAndEvictIfNeeded emptyStore [videoA] 90).1.videos
          = [videoA].take (evictionTargetCount ([videoA] : List Video).length 90).toNat
      ∧ (evictionTargetCount ([videoA] : List Video).length 90).toNat
          ≤ ([videoA] : List Video).length
      ∧ ((90 : ℚ) ≤ 100 →
          (evictionTargetCount ([videoA] : List Video).length 90).toNat = 0 →
          ([videoA] : List Video).length ≤ 1)) :=
  ⟨by decide, evictionTargetCount_spec emptyStore [videoA] 90 (by decide)⟩

/-! ### The eviction write does not survive the merge (C1) -/

/-- C1 (code bug): merging two fresh records into an empty store while
usage reads 100% (above the 80% threshold). The count-truncated collection
is `[videoB, videoA]`; the eviction step computes target count 1 and
persists exactly the newest one record `[videoB]`; but the merge's final
persist writes the un-shrunk `[videoB, videoA]` again, because `saveVideos`
discards the collection `checkAndEvictIfNeeded` returns. The eviction
shrink therefore does not survive the merge, contrary to the claim. -/
theorem saveVideos_eviction_overwritten :
    mergeCore emptyStore.videos [videoA, videoB] (effectiveMaxVideos emptyStore.settingsBlob)
      = [videoB, videoA]
    ∧ (checkAndEvictIfNeeded emptyStore [videoB, videoA] 100).2 = [videoB]
    ∧ (saveVideos emptyStore [videoA, videoB] 9 100).videos = [videoB, videoA] := by
  have hmc : mergeCore emptyStore.videos [videoA, videoB]
      (effectiveMaxVideos emptyStore.settingsBlob) = [videoB, videoA] := by decide
  have htarget : (evictionTargetCount ([videoB, videoA] : List Video).length 100).toNat = 1 := by
    have h1 : evictionTargetCount ([videoB, videoA] : List Video).length 100 = 1 := by
      rw [evictionTargetCount]
      have harg : ((([videoB, videoA] : List Video).length : ℚ)
          * ((EVICTION_TARGET * 100) / 100)) = 6 / 5 := by
        norm_num [EVICTION_TARGET]
      rw [harg, Int.floor_eq_iff]
      norm_num
    rw [h1]
    rfl
  refine ⟨hmc, ?_, ?_⟩
  · rw [checkAndEvictIfNeeded, if_pos (by norm_num [WARNING_THRESHOLD])]
    simp only [htarget]
    rfl
  · rw [saveVideos_videos emptyStore [videoA, videoB] 9 100 (by decide), hmc]

/-! ### Query-engine filtering (C5) -/

/-- A filter object whose search query is not lowercase. The feed UI always
lowercases the query before storing it in the filter state, but the filter
function itself does not. -/
def filtersUpperQuery : Filters :=
  { selectedLanguages := [], selectedCountries := [], sortBy := "date", searchQuery := "HELLO" }

def videoHello : Video :=
  { id := "h"
    title := "Hello World"
    channelTitle := "Chan"
    channelId := "c"
    defaultLanguage := "en"
    defaultAudioLanguage := "en"
    regionCode := "US"
    capturedAt := 5
    viewCount := 3 }

/-- C5 counterexample: with query "HELLO" and title "Hello World", the
record passes the spec's predicate (lowercased query "hello" is a substring
of the lowercased title), yet the code's filter drops it — `applyFilters`
matches the query verbatim against the lowercased title, so an uppercase
query cannot match. The claimed iff fails at this input. -/
theorem applyFilters_lowercase_counterexample :
    passesFiltersSpec filtersUpperQuery videoHello
    ∧ videoHello ∉ applyFilters [videoHello] filtersUpperQuery := by
  constructor
  · decide
  · decide

/-- C5 (amended): a record appears in the filter result iff it is in the
collection and passes the three conjunctive filters, where the text clause
uses the stored query string verbatim (the UI lowercases it on entry)
against the lowercased title / owner name. -/
theorem applyFilters_mem_iff (videos : List Video) (f : Filters) (v : Video) :
    v ∈ applyFilters videos f ↔
      v ∈ videos
      ∧ (f.selectedLanguages = [] ∨ v.defaultLanguage ∈ f.selectedLanguages ∨
          v.defaultAudioLanguage ∈ f.selectedLanguages)
      ∧ (f.selectedCountries = [] ∨ v.regionCode ∈ f.selectedCountries)
      ∧ (f.searchQuery = "" ∨ strIncludes (lowerStr v.title) f.searchQuery = true ∨
          strIncludes (lowerStr v.channelTitle) f.searchQuery = true) := by
  rw [applyFilters, List.mem_filter]
  apply and_congr_right
  intro _
  rw [passesFilters]
  split_ifs with h1 h2 h3
  · simp only [Bool.false_eq_true, false_iff]
    push_neg
    intro hl
    exact absurd hl (by tauto)
  · simp only [Bool.false_eq_true, false_iff]
    push_neg
    intro _ hc
    exact absurd hc (by tauto)
  · simp only [Bool.false_eq_true, false_iff]
    push_neg
    intro _ _
    exact ⟨h3.1, by simp [h3.2.1], by simp [h3.2.2]⟩
  · simp only [true_iff]
    push_neg at h1 h2 h3
    refine ⟨?_, ?_, ?_⟩
    · by_cases hl : f.selectedLanguages = []
      · exact Or.inl hl
      · rcases Decidable.em (v.defaultLanguage ∈ f.selectedLanguages) with hm | hm
        · exact Or.inr (Or.inl hm)
        · exact Or.inr (Or.inr (h1 hl hm))
    · by_cases hc : f.selectedCountries = []
      · exact Or.inl hc
      · exact Or.inr (h2 hc)
    · by_cases hq : f.searchQuery = ""
      · exact Or.inl hq
      · rcases Decidable.em (strIncludes (lowerStr v.title) f.searchQuery = true) with hi | hi
        · exact Or.inr (Or.inl hi)
        · right; right
          have hfalse : strIncludes (lowerStr v.title) f.searchQuery = false :=
            Bool.eq_false_iff.mpr hi
          have := h3 hq hfalse
          simpa using this

/-! ### Fetch client fail-fast (C7) -/

/-- C7: `fetchVideoDetails` fails fast before any network call: an empty
id list yields the empty record list with no error; a non-empty id list
with an empty credential throws the missing-credential error. In either
case no detail request is issued and the persisted store is untouched. -/
theorem fetchVideoDetails_fail_fast (st : Store) (videoIds : List String) (apiKey : String)
    (netVideos : List String → Except String (List Video))
    (netChannels : List String → List (String × Option String)) :
    (videoIds = [] →
      fetchVideoDetailsWithStore st videoIds apiKey netVideos netChannels
        = (st, { result := Except.ok [], requests := [] }))
    ∧ (videoIds ≠ [] → apiKey = "" →
      fetchVideoDetailsWithStore st videoIds apiKey netVideos netChannels
        = (st, { result := Except.error "API key is required", requests := [] })) := by
  constructor
  · intro h
    simp [fetchVideoDetailsWithStore, fetchVideoDetails, h]
  · intro h hk
    simp [fetchVideoDetailsWithStore, fetchVideoDetails, h, hk]

/-- Witness for C7: one id and an empty credential. -/
theorem fetchVideoDetails_fail_fast_witness :
    (["x"] : List String) ≠ []
    ∧ ("" : String) = ""
    ∧ fetchVideoDetailsWithStore emptyStore ["x"] "" (fun _ => Except.ok []) (fun _ => [])
        = (emptyStore, { result := Except.error "API key is required", requests := [] }) :=
  ⟨by decide, rfl,
    (fetchVideoDetails_fail_fast emptyStore ["x"] "" (fun _ => Except.ok [])
        (fun _ => [])).2 (by decide) rfl⟩

/-! ### Per-chunk failure isolation (C8) -/

theorem fetchLoop_eq_filterMap
    (netVideos : List String → Except String (List Video))
    (netChannels : List String → List (String × Option String))
    (chunks : List (List String)) :
    fetchLoop netVideos netChannels chunks
      = (chunks.filterMap (processChunk netVideos netChannels)).flatten := by
  induction chunks with
  | nil => rfl
  | cons chunk rest ih =>
    cases h : processChunk netVideos netChannels chunk with
    | none => simp [fetchLoop, List.filterMap_cons, h, ih]
    | some vids => simp [fetchLoop, List.filterMap_cons, h, ih]

/-- C8: with a configured credential, `fetchVideoDetails` never propagates
a chunk failure — it returns `ok` with the concatenation, in chunk order,
of exactly the successfully processed chunks' records, having issued one
detail request per chunk. -/
theorem fetchVideoDetails_chunk_isolation (videoIds : List String) (apiKey : String)
    (netVideos : List String → Except String (List Video))
    (netChannels : List String → List (String × Option String))
    (hkey : apiKey ≠ "") :
    fetchVideoDetails videoIds apiKey netVideos netChannels
      = { result := Except.ok
            (((chunkArray videoIds BATCH_SIZE).filterMap
                (processChunk netVideos netChannels)).flatten)
          requests := chunkArray videoIds BATCH_SIZE } := by
  by_cases h : videoIds = []
  · subst h
    simp [fetchVideoDetails, chunkArray]
  · simp [fetchVideoDetails, h, hkey, fetchLoop_eq_filterMap]

/-- Witness for C8 with one id and credential "k". -/
theorem fetchVideoDetails_chunk_isolation_witness :
    ("k" : String) ≠ ""
    ∧ fetchVideoDetails ["x"] "k" (fun _ => Except.ok []) (fun _ => [])
        = { result := Except.ok
              (((chunkArray ["x"] BATCH_SIZE).filterMap
                  (processChunk (fun _ => Except.ok []) (fun _ => []))).flatten)
            requests := chunkArray ["x"] BATCH_SIZE } :=
  ⟨by decide,
    fetchVideoDetails_chunk_isolation ["x"] "k" (fun _ => Except.ok []) (fun _ => [])
      (by decide)⟩

/-! ### Capture history (C9) -/

theorem lastN_of_length_le {α : Type} (n : Nat) (l : List α) (h : l.length ≤ n) :
    lastN n l = l := by
  unfold lastN
  rw [List.take_of_length_le (by simpa using h), List.reverse_reverse]

theorem mergeMany_captureHistory (batches : List (List Video × Nat × ℚ)) :
    ∀ st : Store,
      (∀ b ∈ batches, b.1 ≠ []) →
      st.captureHistory.length ≤ 50 →
      (mergeMany st batches).captureHistory
        = lastN 50 (st.captureHistory
            ++ batches.map (fun b => { timestamp := b.2.1, videoCount := b.1.length })) := by
  induction batches with
  | nil =>
    intro st _ hlen
    simp [mergeMany, lastN_of_length_le 50 _ hlen]
  | cons b rest ih =>
    intro st hne hlen
    have hb : b.1 ≠ [] := hne b (List.mem_cons_self _ _)
    have hstep : (saveVideos st b.1 b.2.1 b.2.2).captureHistory
        = lastN 50 (st.captureHistory
            ++ [{ timestamp := b.2.1, videoCount := b.1.length }]) :=
      saveVideos_captureHistory st b.1 b.2.1 b.2.2 hb
    have hlen' : (saveVideos st b.1 b.2.1 b.2.2).captureHistory.length ≤ 50 := by
      rw [hstep, lastN_length]
      omega
    have hrest := ih (saveVideos st b.1 b.2.1 b.2.2)
      (fun x hx => hne x (List.mem_cons_of_mem _ hx)) hlen'
    show (mergeMany (saveVideos st b.1 b.2.1 b.2.2) rest).captureHistory = _
    rw [hrest, hstep, lastN_append_assoc]
    simp [List.append_assoc]

/-- C9: every merge with a non-empty batch appends the history entry
`(now, |newRecords|)` — the raw input count — and keeps only the 50 most
recent entries (oldest dropped first); consequently 51 successive
single-record merges from the empty store leave exactly 50 entries, the
oldest one dropped. -/
theorem captureHistory_append_and_cap :
    (∀ (st : Store) (newVideos : List Video) (now : Nat) (usagePercent : ℚ),
        newVideos ≠ [] →
        (saveVideos st newVideos now usagePercent).captureHistory
          = lastN 50 (st.captureHistory
              ++ [{ timestamp := now, videoCount := newVideos.length }]))
    ∧ (∀ batches : List (List Video × Nat × ℚ),
        (∀ b ∈ batches, b.1.length = 1) →
        batches.length = 51 →
        (mergeMany emptyStore batches).captureHistory
            = (batches.map
                (fun b => { timestamp := b.2.1, videoCount := b.1.length })).drop 1
          ∧ (mergeMany emptyStore batches).captureHistory.length = 50) := by
  constructor
  · exact saveVideos_captureHistory
  · intro batches h1 h51
    have hne : ∀ b ∈ batches, b.1 ≠ [] := by
      intro b hb hnil
      have hlen1 := h1 b hb
      rw [hnil] at hlen1
      simp at hlen1
    have h := mergeMany_captureHistory batches emptyStore hne (by simp [emptyStore])
    have hempty : emptyStore.captureHistory = [] := rfl
    rw [h, hempty, List.nil_append]
    have hmap : (batches.map
        (fun b => ({ timestamp := b.2.1, videoCount := b.1.length } : HistoryEntry))).length
        = 51 := by
      simp [h51]
    constructor
    · rw [← drop_length_sub_eq_lastN, hmap]
    · rw [lastN_length, hmap]
      decide

/-- The 51 identical single-record batches used by the C9 witness. -/
def witnessBatches : List (List Video × Nat × ℚ) := List.replicate 51 ([videoA], 3, 50)

/-- Witness for C9: one concrete merge plus the 51-merge scenario. -/
theorem captureHistory_append_and_cap_witness :
    ([videoA] : List Video) ≠ []
    ∧ (∀ b ∈ witnessBatches, b.1.length = 1)
    ∧ witnessBatches.length = 51
    ∧ (saveVideos emptyStore [videoA] 3 50).captureHistory
        = lastN 50 (emptyStore.captureHistory
            ++ [{ timestamp := 3, videoCount := ([videoA] : List Video).length }])
    ∧ (mergeMany emptyStore witnessBatches).captureHistory.length = 50 := by
  refine ⟨by decide, by decide, by decide, ?_, ?_⟩
  · exact captureHistory_append_and_cap.1 emptyStore [videoA] 3 50 (by decide)
  · exact (captureHistory_append_and_cap.2 witnessBatches (by decide) (by decide)).2

/-! ### Falsy maxStoredVideos defaults to 500 (C10) -/

/-- The raw stored value of the `maxStoredVideos` field, if any. -/
def storedMaxVideos (st : Store) : Option Nat :=
  st.settingsBlob.bind (fun b => b.maxStoredVideos?)

/-- C10: when the settings blob is absent, or its `maxStoredVideos` field
is missing or zero, the merge enforces the default ceiling 500: it
persists exactly what it would persist with `maxStoredVideos` configured
as 500, stores at most 500 records, and does not empty storage. -/
theorem saveVideos_falsy_max_defaults (st : Store) (newVideos : List Video)
    (now : Nat) (usagePercent : ℚ)
    (hfalsy : storedMaxVideos st = none ∨ storedMaxVideos st = some 0)
    (hne : newVideos ≠ []) :
    effectiveMaxVideos st.settingsBlob = 500
    ∧ (saveVideos st newVideos now usagePercent).videos
        = (saveVideos { st with settingsBlob := some { maxStoredVideos? := some 500 } }
            newVideos now usagePercent).videos
    ∧ (saveVideos st newVideos now usagePercent).videos.length ≤ 500
    ∧ (saveVideos st newVideos now usagePercent).videos ≠ [] := by
  have heff : effectiveMaxVideos st.settingsBlob = 500 := by
    rcases hfalsy with h | h
    · cases hblob : st.settingsBlob with
      | none => simp [effectiveMaxVideos, getSettings, DEFAULT_SETTINGS]
      | some b =>
        rw [storedMaxVideos, hblob] at h
        simp only [Option.some_bind] at h
        simp [effectiveMaxVideos, getSettings, h, DEFAULT_SETTINGS]
    · cases hblob : st.settingsBlob with
      | none =>
        rw [storedMaxVideos, hblob] at h
        simp at h
      | some b =>
        rw [storedMaxVideos, hblob] at h
        simp only [Option.some_bind] at h
        simp [effectiveMaxVideos, getSettings, h, DEFAULT_SETTINGS]
  have heff500 : effectiveMaxVideos
      (some { maxStoredVideos? := some 500 } : Option SettingsBlob) = 500 := by
    simp [effectiveMaxVideos, getSettings, DEFAULT_SETTINGS]
  refine ⟨heff, ?_, ?_, ?_⟩
  · rw [saveVideos_videos st newVideos now usagePercent hne,
      saveVideos_videos _ newVideos now usagePercent hne]
    show mergeCore st.videos newVideos (effectiveMaxVideos st.settingsBlob)
        = mergeCore st.videos newVideos
            (effectiveMaxVideos (some { maxStoredVideos? := some 500 }))
    rw [heff, heff500]
  · rw [saveVideos_videos st newVideos now usagePercent hne, heff]
    exact mergeCore_length_le _ _ _
  · rw [saveVideos_videos st newVideos now usagePercent hne, heff]
    exact mergeCore_ne_nil _ _ _ hne (by norm_num)

/-- A store whose settings blob stores `maxStoredVideos = 0`. -/
def storeZeroMax : Store :=
  { videos := []
    settingsBlob := some { maxStoredVideos? := some 0 }
    lastCaptureTimestamp := 0
    captureHistory := [] }

/-- Witness for C10: a stored `maxStoredVideos = 0` and one new record. -/
theorem saveVideos_falsy_max_defaults_witness :
    (storedMaxVideos storeZeroMax = none ∨ storedMaxVideos storeZeroMax = some 0)
    ∧ ([videoA] : List Video) ≠ []
    ∧ effectiveMaxVideos storeZeroMax.settingsBlob = 500
    ∧ (saveVideos storeZeroMax [videoA] 4 0).videos
        = (saveVideos
            { storeZeroMax with settingsBlob := some { maxStoredVideos? := some 500 } }
            [videoA] 4 0).videos
    ∧ (saveVideos storeZeroMax [videoA] 4 0).videos.length ≤ 500
    ∧ (saveVideos storeZeroMax [videoA] 4 0).videos ≠ [] := by
  have h := saveVideos_falsy_max_defaults storeZeroMax [videoA] 4 0
    (Or.inr (by decide)) (by decide)
  exact ⟨Or.inr (by decide), by decide, h.1, h.2.1, h.2.2.1, h.2.2.2⟩
